import Mathlib

/-!
Shallow embedding of the govbizops collection pipeline.

The embedding follows `src/client.py` (class `SAMGovClient`) and
`src/collector.py` (class `OpportunityCollector`).  Machine-level effects are
made explicit: the mutable client instance becomes a `ClientState` value that
is threaded through, the HTTP upstream becomes an oracle function
`Api : ApiReq → Except SamError SearchResponse`, raised Python exceptions
become `Except` error results, and each operation additionally reports how
many network requests it issued, so that "rejected before any network call"
is a provable statement.  Wall-clock datetimes are modelled as integer
seconds; a calendar date (for the daily quota) is a natural number.
-/

set_option autoImplicit false

deriving instance DecidableEq for Except

/-- Boolean test that the first character list is a prefix of the second;
used to express the Python substring operator `in`. -/
def charsStartWith : List Char → List Char → Bool
  | [], _ => true
  | _ :: _, [] => false
  | c :: cs, d :: ds => c = d && charsStartWith cs ds

/-- Boolean substring occurrence on character lists. -/
def charsContain : List Char → List Char → Bool
  | [], pat => pat.isEmpty
  | h :: t, pat => charsStartWith pat (h :: t) || charsContain t pat

/-- The Python expression `pat in s` on strings: `pat` occurs as a contiguous
substring of `s`. -/
def strContains (s pat : String) : Bool := charsContain s.data pat.data

/-- An upstream opportunity record, as consumed by the pipeline.  The source
treats records as JSON attribute bags; only `noticeId` and `type` are
inspected, so the rest of the bag is abstracted into an opaque `payload`.
`noticeId = ""` models a record whose `noticeId` key is missing or empty
(both are falsy in the `if notice_id:` checks of the source). -/
structure Opp where
  noticeId : String
  type : String
  payload : Nat
deriving DecidableEq, Repr

/-- Compliance limit `SAMGovClient.MAX_NAICS_CODES`. -/
def MAX_NAICS_CODES : Nat := 50

/-- Compliance limit `SAMGovClient.MAX_DAYS_RANGE`. -/
def MAX_DAYS_RANGE : Nat := 90

/-- Compliance limit `SAMGovClient.RATE_LIMIT_DELAY` (seconds). -/
def RATE_LIMIT_DELAY : Nat := 2

/-- Compliance limit `SAMGovClient.MAX_DAILY_COLLECTIONS`. -/
def MAX_DAILY_COLLECTIONS : Nat := 100

/-- The errors raised by `SAMGovClient`, plus the transport failure surfaced
by `response.raise_for_status()`. -/
inductive SamError where
  | dailyLimit
  | tooManyNaics (got : Nat)
  | dateRangeTooWide (days : Int)
  | dateRangeOverYear
  | transport
deriving DecidableEq, Repr

/-- The mutable per-instance quota fields of `SAMGovClient`
(`_daily_collections` and `_last_collection_date`). -/
structure ClientState where
  daily_collections : Nat
  last_collection_date : Option Nat
deriving DecidableEq, Repr

/-- Embeds `SAMGovClient._check_daily_limit`: reset the counter when the date
changed, raise when the ceiling is reached, otherwise increment.  Returns
the error (if any) together with the state the instance is left in. -/
def check_daily_limit (today : Nat) (st : ClientState) :
    Except SamError Unit × ClientState :=
  let st1 := if st.last_collection_date = some today then st
             else { daily_collections := 0, last_collection_date := some today }
  if MAX_DAILY_COLLECTIONS ≤ st1.daily_collections then
    (Except.error SamError.dailyLimit, st1)
  else
    (Except.ok (), { st1 with daily_collections := st1.daily_collections + 1 })

/-- Embeds `SAMGovClient._validate_naics_codes`: `None` and the empty list are falsy
and pass; a list longer than the ceiling raises. -/
def validate_naics_codes (naics_codes : Option (List String)) :
    Except SamError Unit :=
  match naics_codes with
  | none => Except.ok ()
  | some codes =>
    if codes.isEmpty then Except.ok ()
    else if MAX_NAICS_CODES < codes.length then
      Except.error (SamError.tooManyNaics codes.length)
    else Except.ok ()

/-- Embeds `SAMGovClient._validate_date_range`: the Python `timedelta.days`
attribute is the floor of the width in whole days, so the width in seconds
is floor-divided by 86400 before comparing with the ceiling. -/
def validate_date_range (posted_from posted_to : Int) : Except SamError Unit :=
  let days_diff := Int.fdiv (posted_to - posted_from) 86400
  if (MAX_DAYS_RANGE : Int) < days_diff then
    Except.error (SamError.dateRangeTooWide days_diff)
  else Except.ok ()

/-- The query parameters of one upstream page request, as built by
`search_opportunities` (the `params` dict).  Dates are carried through
unmodified; `limit` is clamped to 1000; `ncode` is present exactly when a
non-empty code list was supplied. -/
structure ApiReq where
  postedFrom : Int
  postedTo : Int
  limit : Nat
  offset : Nat
  ncode : Option (List String)
deriving DecidableEq, Repr

/-- Build the request parameters exactly as `search_opportunities` does. -/
def buildReq (posted_from posted_to : Int) (naics_codes : Option (List String))
    (limit offset : Nat) : ApiReq :=
  { postedFrom := posted_from
  , postedTo := posted_to
  , limit := min limit 1000
  , offset := offset
  , ncode := match naics_codes with
             | none => none
             | some codes => if codes.isEmpty then none else some codes }

/-- A successful upstream JSON body: the `totalRecords` field and the
`opportunitiesData` array. -/
structure SearchResponse where
  totalRecords : Nat
  opportunitiesData : List Opp
deriving DecidableEq, Repr

/-- The upstream endpoint as an oracle: a transport failure models a non-2xx
status (which `raise_for_status` turns into an exception). -/
def Api : Type := ApiReq → Except SamError SearchResponse

/-- Result of one `search_opportunities` call: the returned body or the
raised error, the client state afterwards, and how many network requests
were actually issued (0 or 1). -/
structure SearchOutcome where
  result : Except SamError SearchResponse
  state : ClientState
  network_calls : Nat
deriving DecidableEq, Repr

/-- Embeds `SAMGovClient.search_opportunities`: quota check (which mutates the
counter) first, then the NAICS-count and date-range compliance checks, then
the separate one-year protocol check, and only then the network request. -/
def search_opportunities (api : Api) (today : Nat)
    (posted_from posted_to : Int) (naics_codes : Option (List String))
    (limit offset : Nat) (st : ClientState) : SearchOutcome :=
  match check_daily_limit today st with
  | (Except.error e, st1) => ⟨Except.error e, st1, 0⟩
  | (Except.ok _, st1) =>
    match validate_naics_codes naics_codes with
    | Except.error e => ⟨Except.error e, st1, 0⟩
    | Except.ok _ =>
      match validate_date_range posted_from posted_to with
      | Except.error e => ⟨Except.error e, st1, 0⟩
      | Except.ok _ =>
        if (365 * 86400 : Int) < posted_to - posted_from then
          ⟨Except.error SamError.dateRangeOverYear, st1, 0⟩
        else
          match api (buildReq posted_from posted_to naics_codes limit offset) with
          | Except.error e => ⟨Except.error e, st1, 1⟩
          | Except.ok resp => ⟨Except.ok resp, st1, 1⟩

/-- Result of the pagination loop: the accumulated records, the number of
network requests issued, and the final client state. -/
structure LoopOut where
  records : List Opp
  requests : Nat
  state : ClientState
deriving DecidableEq, Repr

/-- The `while True` pagination loop of `get_all_opportunities`, with its
page size (`limit`, fixed to 500 by the caller) explicit and an explicit
fuel bound standing in for the unbounded loop.  Any exception raised by a
page fetch is caught and breaks the loop, returning what was accumulated. -/
def get_all_loop (api : Api) (today : Nat) (posted_from posted_to : Int)
    (naics_codes : Option (List String)) (limit : Nat) :
    Nat → Nat → List Opp → ClientState → LoopOut
  | 0, _, acc, st => ⟨acc, 0, st⟩
  | fuel + 1, offset, acc, st =>
    let out := search_opportunities api today posted_from posted_to
                 naics_codes limit offset st
    match out.result with
    | Except.error _ => ⟨acc, out.network_calls, out.state⟩
    | Except.ok resp =>
      if resp.opportunitiesData.isEmpty then
        ⟨acc, out.network_calls, out.state⟩
      else
        let acc1 := acc ++ resp.opportunitiesData
        if resp.totalRecords ≤ offset + limit then
          ⟨acc1, out.network_calls, out.state⟩
        else
          let rest := get_all_loop api today posted_from posted_to naics_codes
                        limit fuel (offset + limit) acc1 out.state
          ⟨rest.records, out.network_calls + rest.requests, rest.state⟩

/-- Result of `get_all_opportunities`: either a pre-loop validation error, or
the (possibly partial) list accumulated by the loop. -/
structure FetchAllOutcome where
  result : Except SamError (List Opp)
  requests : Nat
  state : ClientState
deriving DecidableEq, Repr

/-- Embeds `SAMGovClient.get_all_opportunities`: validate the NAICS count and the
date range up front (these raise to the caller), then run the pagination
loop with the fixed page size 500 starting at offset 0.  Errors inside the
loop are swallowed, so the loop itself always yields an `ok` result. -/
def get_all_opportunities (api : Api) (today : Nat)
    (posted_from posted_to : Int) (naics_codes : Option (List String))
    (st : ClientState) (fuel : Nat) : FetchAllOutcome :=
  match validate_naics_codes naics_codes with
  | Except.error e => ⟨Except.error e, 0, st⟩
  | Except.ok _ =>
    match validate_date_range posted_from posted_to with
    | Except.error e => ⟨Except.error e, 0, st⟩
    | Except.ok _ =>
      let out := get_all_loop api today posted_from posted_to naics_codes
                   500 fuel 0 [] st
      ⟨Except.ok out.records, out.requests, out.state⟩

/-- First-match lookup in an association list, i.e. Python `d.get(k)` /
`k in d` on a dict represented as its insertion-ordered entry list. -/
def alookup {α : Type} : List (String × α) → String → Option α
  | [], _ => none
  | (k, v) :: t, key => if k = key then some v else alookup t key

/-- Python `d[k] = v` on an insertion-ordered dict: replace in place when the
key is present, append otherwise. -/
def upsert {α : Type} (m : List (String × α)) (k : String) (v : α) :
    List (String × α) :=
  if m.any (fun p => decide (p.1 = k)) then
    m.map (fun p => if p.1 = k then (k, v) else p)
  else m ++ [(k, v)]

/-- One step of the merge loop in `collect_daily_opportunities` (lines
109-112): read the notice id, and when it is truthy write the record into
`all_opportunities_dict` under it. -/
def insertOpp (d : List (String × Opp)) (opp : Opp) : List (String × Opp) :=
  if opp.noticeId = "" then d else upsert d opp.noticeId opp

/-- The multi-query merge of `collect_daily_opportunities` (lines 94-112):
one `get_all_opportunities` result list per NAICS code, each folded into the
shared dict keyed by `noticeId`. -/
def mergeOpportunities (queryResults : List (List Opp)) : List (String × Opp) :=
  queryResults.foldl (fun d opps => opps.foldl insertOpp d) []

/-- Embeds `total_fetched` (line 106): the sum of the per-query result sizes, before
any deduplication. -/
def totalFetched (queryResults : List (List Opp)) : Nat :=
  (queryResults.map List.length).sum

/-- A stored entry of the durable map: `{"collected_date": ..., "data": opp}`
(line 136-139), with the timestamp as an abstract `Nat`. -/
structure StoredRecord where
  collected_date : Nat
  data : Opp
deriving DecidableEq, Repr

/-- The in-memory store `self.opportunities`: a JSON object keyed by notice
id, kept in insertion order. -/
abbrev Store : Type := List (String × StoredRecord)

/-- The accumulator of the filter-and-categorize loop (lines 118-142):
`new_opportunities`, the store, `already_collected`, `non_solicitation`. -/
structure CycleAcc where
  news : List Opp
  store : Store
  already : Nat
  nonsol : Nat

/-- One iteration of the filter-and-categorize loop (lines 122-142). -/
def processOne (now : Nat) (acc : CycleAcc) (opp : Opp) : CycleAcc :=
  if opp.noticeId = "" then acc
  else if (alookup acc.store opp.noticeId).isSome then
    { acc with already := acc.already + 1 }
  else if strContains opp.type "Solicitation" then
    { acc with
      news := acc.news ++ [opp]
      store := upsert acc.store opp.noticeId ⟨now, opp⟩ }
  else { acc with nonsol := acc.nonsol + 1 }

/-- The outcome of one collection cycle, carrying the per-cycle counts the
source logs and whether the store was persisted. -/
structure CollectResult where
  new_opportunities : List Opp
  store : Store
  total_fetched : Nat
  already_collected : Nat
  non_solicitation : Nat
  saved : Bool
deriving DecidableEq, Repr

/-- Embeds `OpportunityCollector.collect_daily_opportunities`, with the upstream
fetches abstracted as the list of per-NAICS-code result lists (one entry per
configured code, in order) and the wall clock as `now`.  Raises when
`days_back` exceeds the compliance ceiling; otherwise merges, filters by
type, deduplicates against the store, and persists only when something new
was accepted. -/
def collect_daily_opportunities (store : Store) (now : Nat) (days_back : Nat)
    (queryResults : List (List Opp)) : Except String CollectResult :=
  if MAX_DAYS_RANGE < days_back then
    Except.error "days range exceeded"
  else
    let opportunities := (mergeOpportunities queryResults).map Prod.snd
    let r := opportunities.foldl (processOne now) ⟨[], store, 0, 0⟩
    Except.ok
      { new_opportunities := r.news
      , store := r.store
      , total_fetched := totalFetched queryResults
      , already_collected := r.already
      , non_solicitation := r.nonsol
      , saved := !r.news.isEmpty }

/-- What `OpportunityCollector._load_opportunities` can observe about the
storage file. -/
inductive LoadInput where
  | missing
  | unreadable
  | parsed (s : Store)

/-- Embeds `OpportunityCollector._load_opportunities`: a missing file and a file
that fails to open or parse both yield the empty map; only a successfully
parsed file contributes entries. -/
def load_opportunities : LoadInput → Store
  | LoadInput.missing => []
  | LoadInput.unreadable => []
  | LoadInput.parsed s => s

/-- Embeds `OpportunityCollector._save_opportunities`, modelled as the content the
storage file holds after a successful write: the whole in-memory map,
replacing whatever the file held before. -/
def save_opportunities (store : Store) : Store := store

/-! ### Association-list lemmas -/

theorem alookup_nil {α : Type} (key : String) :
    alookup ([] : List (String × α)) key = none := rfl

theorem alookup_cons {α : Type} (k : String) (v : α) (t : List (String × α))
    (key : String) :
    alookup ((k, v) :: t) key = if k = key then some v else alookup t key := rfl

theorem alookup_append_some {α : Type} {m1 : List (String × α)}
    (m2 : List (String × α)) {key : String} {v : α}
    (h : alookup m1 key = some v) : alookup (m1 ++ m2) key = some v := by
  induction m1 with
  | nil => simp [alookup_nil] at h
  | cons p t ih =>
    obtain ⟨pk, pv⟩ := p
    rw [alookup_cons] at h
    rw [List.cons_append, alookup_cons]
    by_cases hk : pk = key
    · simpa [hk] using h
    · rw [if_neg hk] at h ⊢
      exact ih h

theorem alookup_append_none {α : Type} {m1 : List (String × α)}
    (m2 : List (String × α)) {key : String} (h : alookup m1 key = none) :
    alookup (m1 ++ m2) key = alookup m2 key := by
  induction m1 with
  | nil => simp
  | cons p t ih =>
    obtain ⟨pk, pv⟩ := p
    rw [alookup_cons] at h
    rw [List.cons_append, alookup_cons]
    by_cases hk : pk = key
    · rw [if_pos hk] at h
      exact absurd h (by simp)
    · rw [if_neg hk] at h ⊢
      exact ih h

theorem alookup_append_single_ne {α : Type} (m : List (String × α))
    {key k : String} (v : α) (h : key ≠ k) :
    alookup (m ++ [(k, v)]) key = alookup m key := by
  cases hm : alookup m key with
  | some w => exact alookup_append_some _ hm
  | none =>
    rw [alookup_append_none _ hm, alookup_cons, if_neg (fun hc => h hc.symm),
      alookup_nil]

theorem alookup_isSome_iff_any {α : Type} (m : List (String × α)) (k : String) :
    (alookup m k).isSome = m.any (fun p => decide (p.1 = k)) := by
  induction m with
  | nil => simp [alookup_nil]
  | cons p t ih =>
    obtain ⟨pk, pv⟩ := p
    rw [alookup_cons]
    by_cases hk : pk = k <;> simp [hk, ih]

theorem alookup_eq_none_iff {α : Type} (m : List (String × α)) (k : String) :
    alookup m k = none ↔ ∀ p ∈ m, p.1 ≠ k := by
  induction m with
  | nil => simp [alookup_nil]
  | cons p t ih =>
    obtain ⟨pk, pv⟩ := p
    rw [alookup_cons]
    by_cases hk : pk = k <;> simp [hk, ih]

theorem upsert_of_absent {α : Type} {m : List (String × α)} {k : String}
    (v : α) (h : alookup m k = none) : upsert m k v = m ++ [(k, v)] := by
  have hany : m.any (fun p => decide (p.1 = k)) = false := by
    have hiff := alookup_isSome_iff_any m k
    rw [h] at hiff
    exact hiff.symm
  simp [upsert, hany]

theorem alookup_map_upd_ne {α : Type} (m : List (String × α)) {key k : String}
    (v : α) (h : key ≠ k) :
    alookup (m.map (fun p => if p.1 = k then (k, v) else p)) key =
      alookup m key := by
  induction m with
  | nil => simp
  | cons p t ih =>
    obtain ⟨pk, pv⟩ := p
    simp only [List.map_cons]
    by_cases hp : pk = k
    · subst hp
      have h1 : pk ≠ key := fun hc => h hc.symm
      rw [if_pos rfl, alookup_cons, alookup_cons, if_neg h1, if_neg h1]
      exact ih
    · rw [if_neg hp, alookup_cons, alookup_cons]
      by_cases hpk : pk = key
      · rw [if_pos hpk, if_pos hpk]
      · rw [if_neg hpk, if_neg hpk]
        exact ih

theorem alookup_map_upd_self {α : Type} (m : List (String × α)) {k : String}
    (v : α) (h : (alookup m k).isSome) :
    alookup (m.map (fun p => if p.1 = k then (k, v) else p)) k = some v := by
  induction m with
  | nil => simp [alookup_nil] at h
  | cons p t ih =>
    obtain ⟨pk, pv⟩ := p
    simp only [List.map_cons]
    by_cases hp : pk = k
    · subst hp
      rw [if_pos rfl, alookup_cons, if_pos rfl]
    · rw [alookup_cons, if_neg hp] at h
      rw [if_neg hp, alookup_cons, if_neg hp]
      exact ih h

theorem alookup_upsert {α : Type} (m : List (String × α)) (k key : String)
    (v : α) :
    alookup (upsert m k v) key = if key = k then some v else alookup m key := by
  cases hany : m.any (fun p => decide (p.1 = k)) with
  | true =>
    have hsome : (alookup m k).isSome := by
      rw [alookup_isSome_iff_any, hany]
    rw [upsert, if_pos hany]
    by_cases hk : key = k
    · subst hk
      rw [if_pos rfl]
      exact alookup_map_upd_self m v hsome
    · rw [if_neg hk]
      exact alookup_map_upd_ne m v hk
  | false =>
    have hnone : alookup m k = none := by
      have hiff := alookup_isSome_iff_any m k
      rw [hany] at hiff
      exact Option.not_isSome_iff_eq_none.mp (by simp [hiff])
    rw [upsert, if_neg (by simp [hany])]
    by_cases hk : key = k
    · subst hk
      rw [if_pos rfl, alookup_append_none _ hnone, alookup_cons, if_pos rfl]
    · rw [if_neg hk]
      exact alookup_append_single_ne m v hk

/-! ### Merge lemmas -/

/-- The specification-side reading of the merge: the record returned for a
key is the last record bearing that key across all per-query result lists,
in query order. -/
def lastFetched (queryResults : List (List Opp)) (key : String) : Option Opp :=
  queryResults.flatten.reverse.find? (fun o => decide (o.noticeId = key))

theorem merge_eq_flatten_foldl (queryResults : List (List Opp)) :
    mergeOpportunities queryResults =
      queryResults.flatten.foldl insertOpp [] := by
  suffices h : ∀ (qrs : List (List Opp)) (d : List (String × Opp)),
      qrs.foldl (fun d opps => opps.foldl insertOpp d) d =
        qrs.flatten.foldl insertOpp d by
    exact h queryResults []
  intro qrs
  induction qrs with
  | nil => intro d; rfl
  | cons q t ih =>
    intro d
    rw [List.flatten_cons, List.foldl_append, List.foldl_cons, ih]

theorem alookup_insertOpp (d : List (String × Opp)) (o : Opp) {key : String}
    (hk : key ≠ "") :
    alookup (insertOpp d o) key =
      (List.find? (fun x => decide (x.noticeId = key)) [o]).or
        (alookup d key) := by
  unfold insertOpp
  by_cases h0 : o.noticeId = ""
  · have hp : (decide (o.noticeId = key)) = false := by
      rw [h0]
      exact decide_eq_false (Ne.symm hk)
    rw [if_pos h0]
    simp [List.find?, hp]
  · rw [if_neg h0, alookup_upsert]
    by_cases hke : key = o.noticeId
    · have hp : (decide (o.noticeId = key)) = true := decide_eq_true hke.symm
      rw [if_pos hke]
      simp [List.find?, hp]
    · have hp : (decide (o.noticeId = key)) = false :=
        decide_eq_false (fun hc => hke hc.symm)
      rw [if_neg hke]
      simp [List.find?, hp]

theorem alookup_foldl_insertOpp (l : List Opp) (d : List (String × Opp))
    {key : String} (hk : key ≠ "") :
    alookup (l.foldl insertOpp d) key =
      (l.reverse.find? (fun o => decide (o.noticeId = key))).or
        (alookup d key) := by
  induction l generalizing d with
  | nil => simp
  | cons o t ih =>
    rw [List.foldl_cons, ih (insertOpp d o), List.reverse_cons,
      List.find?_append, Option.or_assoc, alookup_insertOpp d o hk]

/-- The merged dict is exactly the by-identifier union of the per-query
results with last-write-wins, for every non-empty identifier. -/
theorem alookup_merge (queryResults : List (List Opp)) {key : String}
    (hk : key ≠ "") :
    alookup (mergeOpportunities queryResults) key =
      lastFetched queryResults key := by
  rw [merge_eq_flatten_foldl, lastFetched,
    alookup_foldl_insertOpp _ _ hk]
  simp [alookup_nil]

theorem mem_upsert {α : Type} {m : List (String × α)} {k : String} {v : α}
    {p : String × α} (h : p ∈ upsert m k v) : p ∈ m ∨ p = (k, v) := by
  unfold upsert at h
  by_cases hany : m.any (fun q => decide (q.1 = k)) = true
  · rw [if_pos hany] at h
    obtain ⟨q, hq, hfq⟩ := List.mem_map.mp h
    by_cases hqk : q.1 = k
    · right
      rw [if_pos hqk] at hfq
      exact hfq.symm
    · left
      rw [if_neg hqk] at hfq
      rw [← hfq]
      exact hq
  · rw [if_neg hany] at h
    rcases List.mem_append.mp h with h1 | h1
    · exact Or.inl h1
    · right
      simpa using h1

theorem foldl_insertOpp_entry_prop (l : List Opp)
    (d : List (String × Opp))
    (hd : ∀ p ∈ d, p.2.noticeId = p.1 ∧ p.1 ≠ "") :
    ∀ p ∈ l.foldl insertOpp d, p.2.noticeId = p.1 ∧ p.1 ≠ "" := by
  induction l generalizing d with
  | nil => exact hd
  | cons o t ih =>
    rw [List.foldl_cons]
    refine ih (insertOpp d o) ?_
    intro p hp
    unfold insertOpp at hp
    by_cases h0 : o.noticeId = ""
    · rw [if_pos h0] at hp
      exact hd p hp
    · rw [if_neg h0] at hp
      rcases mem_upsert hp with h1 | h1
      · exact hd p h1
      · rw [h1]
        exact ⟨rfl, h0⟩

/-- Every entry of the merged dict is keyed by the non-empty notice id of
its own record. -/
theorem merge_entry_prop (queryResults : List (List Opp)) :
    ∀ p ∈ mergeOpportunities queryResults, p.2.noticeId = p.1 ∧ p.1 ≠ "" := by
  rw [merge_eq_flatten_foldl]
  exact foldl_insertOpp_entry_prop _ [] (by simp)

theorem keys_map_upd {α : Type} (m : List (String × α)) (k : String) (v : α) :
    (m.map (fun p => if p.1 = k then (k, v) else p)).map Prod.fst =
      m.map Prod.fst := by
  induction m with
  | nil => rfl
  | cons p t ih =>
    obtain ⟨pk, pv⟩ := p
    simp only [List.map_cons]
    by_cases hp : pk = k
    · subst hp
      rw [if_pos rfl]
      simp [ih]
    · rw [if_neg hp]
      simp [ih]

theorem keys_upsert_nodup {α : Type} {m : List (String × α)} {k : String}
    (v : α) (h : (m.map Prod.fst).Nodup) :
    ((upsert m k v).map Prod.fst).Nodup := by
  unfold upsert
  by_cases hany : m.any (fun q => decide (q.1 = k)) = true
  · rw [if_pos hany, keys_map_upd]
    exact h
  · rw [if_neg hany]
    have hnotin : k ∉ m.map Prod.fst := by
      intro hc
      obtain ⟨p, hp, hpk⟩ := List.mem_map.mp hc
      exact hany (List.any_eq_true.mpr ⟨p, hp, by simp [hpk]⟩)
    rw [List.map_append]
    rw [List.nodup_append]
    refine ⟨h, by simp, ?_⟩
    intro a ha hb
    simp only [List.map_cons, List.map_nil, List.mem_singleton] at hb
    rw [hb] at ha
    exact hnotin ha

theorem foldl_insertOpp_keys_nodup (l : List Opp) (d : List (String × Opp))
    (hd : (d.map Prod.fst).Nodup) :
    ((l.foldl insertOpp d).map Prod.fst).Nodup := by
  induction l generalizing d with
  | nil => exact hd
  | cons o t ih =>
    rw [List.foldl_cons]
    refine ih (insertOpp d o) ?_
    unfold insertOpp
    by_cases h0 : o.noticeId = ""
    · rw [if_pos h0]; exact hd
    · rw [if_neg h0]
      exact keys_upsert_nodup o hd

/-- The merged dict has pairwise distinct keys. -/
theorem merge_keys_nodup (queryResults : List (List Opp)) :
    ((mergeOpportunities queryResults).map Prod.fst).Nodup := by
  rw [merge_eq_flatten_foldl]
  exact foldl_insertOpp_keys_nodup _ [] (by simp)

/-- The notice ids of the merged record list are exactly the dict keys. -/
theorem merge_values_ids (queryResults : List (List Opp)) :
    ((mergeOpportunities queryResults).map Prod.snd).map Opp.noticeId =
      (mergeOpportunities queryResults).map Prod.fst := by
  rw [List.map_map]
  exact List.map_congr_left (fun p hp => (merge_entry_prop queryResults p hp).1)

/-- The notice ids of the merged record list are pairwise distinct. -/
theorem merge_values_ids_nodup (queryResults : List (List Opp)) :
    (((mergeOpportunities queryResults).map Prod.snd).map Opp.noticeId).Nodup := by
  rw [merge_values_ids]
  exact merge_keys_nodup queryResults

/-- Every merged record has a non-empty notice id. -/
theorem merge_values_truthy (queryResults : List (List Opp)) :
    ∀ o ∈ (mergeOpportunities queryResults).map Prod.snd, o.noticeId ≠ "" := by
  intro o ho
  obtain ⟨p, hp, hpo⟩ := List.mem_map.mp ho
  have hprop := merge_entry_prop queryResults p hp
  rw [← hpo]
  rw [hprop.1]
  exact hprop.2

/-! ### Collection-cycle lemmas -/

/-- Test that the id of a record is already a key of the store (the
`notice_id in self.opportunities` membership test). -/
def isPresent (store : Store) (o : Opp) : Bool :=
  (alookup store o.noticeId).isSome

/-- The acceptance predicate of the filter loop: not yet stored and of a
solicitation type. -/
def isAccepted (store : Store) (o : Opp) : Bool :=
  !(isPresent store o) && strContains o.type "Solicitation"

/-- The predicate counted in the `non_solicitation` bucket. -/
def isNonSol (store : Store) (o : Opp) : Bool :=
  !(isPresent store o) && !(strContains o.type "Solicitation")

/-- The records a cycle accepts out of a deduplicated record list, in
processing order. -/
def acceptedRecords (store : Store) (l : List Opp) : List Opp :=
  l.filter (isAccepted store)

/-- The store entry written for a newly accepted record. -/
def toEntry (now : Nat) (o : Opp) : String × StoredRecord :=
  (o.noticeId, ⟨now, o⟩)

theorem alookup_toEntry_of_mem {xs : List Opp} {o : Opp} (now : Nat)
    (hnd : (xs.map Opp.noticeId).Nodup) (ho : o ∈ xs) :
    alookup (xs.map (toEntry now)) o.noticeId = some ⟨now, o⟩ := by
  induction xs with
  | nil => simp at ho
  | cons x t ih =>
    simp only [List.map_cons, List.nodup_cons] at hnd
    rw [List.map_cons, toEntry, alookup_cons]
    rcases List.mem_cons.mp ho with h1 | h1
    · rw [h1, if_pos rfl]
    · have hne : x.noticeId ≠ o.noticeId := by
        intro hc
        exact hnd.1 (hc ▸ List.mem_map_of_mem Opp.noticeId h1)
      rw [if_neg hne]
      exact ih hnd.2 h1

theorem alookup_toEntry_eq_none {xs : List Opp} {key : String} (now : Nat)
    (h : ∀ o ∈ xs, o.noticeId ≠ key) :
    alookup (xs.map (toEntry now)) key = none := by
  rw [alookup_eq_none_iff]
  intro p hp
  obtain ⟨o, ho, hpo⟩ := List.mem_map.mp hp
  rw [← hpo]
  exact h o ho

/-- The filter-and-categorize loop, characterized against the state it
starts from: it appends exactly the accepted records to the result list and
to the store, counts the already-present ids, and counts the non-matching
types.  Needs that all ids are non-empty and pairwise distinct, which holds
for the output of the merge step. -/
theorem foldl_processOne_spec (now : Nat) (l : List Opp) (acc : CycleAcc)
    (htruthy : ∀ o ∈ l, o.noticeId ≠ "")
    (hnodup : (l.map Opp.noticeId).Nodup) :
    (l.foldl (processOne now) acc).news
        = acc.news ++ acceptedRecords acc.store l ∧
      (l.foldl (processOne now) acc).store
        = acc.store ++ (acceptedRecords acc.store l).map (toEntry now) ∧
      (l.foldl (processOne now) acc).already
        = acc.already + l.countP (isPresent acc.store) ∧
      (l.foldl (processOne now) acc).nonsol
        = acc.nonsol + l.countP (isNonSol acc.store) := by
  induction l generalizing acc with
  | nil => simp [acceptedRecords]
  | cons o t ih =>
    have ho : o.noticeId ≠ "" := htruthy o (List.mem_cons_self o t)
    have htt : ∀ x ∈ t, x.noticeId ≠ "" :=
      fun x hx => htruthy x (List.mem_cons_of_mem o hx)
    simp only [List.map_cons, List.nodup_cons] at hnodup
    have hidne : ∀ x ∈ t, x.noticeId ≠ o.noticeId := by
      intro x hx hc
      exact hnodup.1 (hc ▸ List.mem_map_of_mem Opp.noticeId hx)
    rw [List.foldl_cons]
    by_cases hpres : (alookup acc.store o.noticeId).isSome = true
    · have hpo : isPresent acc.store o = true := hpres
      have hao : isAccepted acc.store o = false := by
        rw [isAccepted, hpo]
        rfl
      have hno : isNonSol acc.store o = false := by
        rw [isNonSol, hpo]
        rfl
      have hstep : processOne now acc o =
          CycleAcc.mk acc.news acc.store (acc.already + 1) acc.nonsol := by
        rw [processOne, if_neg ho, if_pos hpres]
      rw [hstep]
      obtain ⟨ihn, ihs, iha, ihb⟩ :=
        ih (CycleAcc.mk acc.news acc.store (acc.already + 1) acc.nonsol) htt hnodup.2
      refine ⟨?_, ?_, ?_, ?_⟩
      · rw [ihn]
        simp [acceptedRecords, List.filter_cons, hao]
      · rw [ihs]
        simp [acceptedRecords, List.filter_cons, hao]
      · rw [iha]
        simp [List.countP_cons, hpo]
        omega
      · rw [ihb]
        simp [List.countP_cons, hno]
    · have habs : alookup acc.store o.noticeId = none :=
        Option.not_isSome_iff_eq_none.mp (by simpa using hpres)
      have hpo : isPresent acc.store o = false := by
        rw [isPresent, habs]
        rfl
      by_cases hsol : strContains o.type "Solicitation" = true
      · have hacc : isAccepted acc.store o = true := by
          rw [isAccepted, hpo, hsol]
          rfl
        have hstep : processOne now acc o =
            CycleAcc.mk (acc.news ++ [o]) (acc.store ++ [toEntry now o])
              acc.already acc.nonsol := by
          rw [processOne, if_neg ho, if_neg hpres, if_pos hsol,
            upsert_of_absent _ habs]
          rfl
        rw [hstep]
        obtain ⟨ihn, ihs, iha, ihb⟩ :=
          ih (CycleAcc.mk (acc.news ++ [o]) (acc.store ++ [toEntry now o])
            acc.already acc.nonsol) htt hnodup.2
        have hsame : ∀ x ∈ t,
            alookup (acc.store ++ [toEntry now o]) x.noticeId
              = alookup acc.store x.noticeId := by
          intro x hx
          exact alookup_append_single_ne acc.store _ (hidne x hx)
        have hfilt : acceptedRecords (acc.store ++ [toEntry now o]) t
            = acceptedRecords acc.store t := by
          refine List.filter_congr ?_
          intro x hx
          rw [isAccepted, isAccepted, isPresent, isPresent, hsame x hx]
        have hcpres : t.countP (isPresent (acc.store ++ [toEntry now o]))
            = t.countP (isPresent acc.store) := by
          refine List.countP_congr ?_
          intro x hx
          rw [isPresent, isPresent, hsame x hx]
        have hcnon : t.countP (isNonSol (acc.store ++ [toEntry now o]))
            = t.countP (isNonSol acc.store) := by
          refine List.countP_congr ?_
          intro x hx
          rw [isNonSol, isNonSol, isPresent, isPresent, hsame x hx]
        refine ⟨?_, ?_, ?_, ?_⟩
        · rw [ihn]
          show acc.news ++ [o] ++ acceptedRecords (acc.store ++ [toEntry now o]) t
              = acc.news ++ acceptedRecords acc.store (o :: t)
          rw [hfilt, acceptedRecords, acceptedRecords, List.filter_cons,
            if_pos hacc, List.append_assoc, List.singleton_append]
        · rw [ihs]
          show acc.store ++ [toEntry now o]
                ++ (acceptedRecords (acc.store ++ [toEntry now o]) t).map (toEntry now)
              = acc.store ++ (acceptedRecords acc.store (o :: t)).map (toEntry now)
          rw [hfilt, acceptedRecords, acceptedRecords, List.filter_cons,
            if_pos hacc, List.map_cons, List.append_assoc, List.singleton_append]
        · rw [iha]
          show acc.already + t.countP (isPresent (acc.store ++ [toEntry now o]))
              = acc.already + (o :: t).countP (isPresent acc.store)
          rw [hcpres, List.countP_cons, hpo]
          rfl
        · rw [ihb]
          show acc.nonsol + t.countP (isNonSol (acc.store ++ [toEntry now o]))
              = acc.nonsol + (o :: t).countP (isNonSol acc.store)
          have hns : isNonSol acc.store o = false := by
            rw [isNonSol, hpo, hsol]
            rfl
          rw [hcnon, List.countP_cons, hns]
          rfl
      · have hao : isAccepted acc.store o = false := by
          rw [isAccepted, hpo, eq_false_of_ne_true hsol]
          rfl
        have hno : isNonSol acc.store o = true := by
          rw [isNonSol, hpo, eq_false_of_ne_true hsol]
          rfl
        have hstep : processOne now acc o =
            CycleAcc.mk acc.news acc.store acc.already (acc.nonsol + 1) := by
          rw [processOne, if_neg ho, if_neg hpres, if_neg hsol]
        rw [hstep]
        obtain ⟨ihn, ihs, iha, ihb⟩ :=
          ih (CycleAcc.mk acc.news acc.store acc.already (acc.nonsol + 1)) htt hnodup.2
        refine ⟨?_, ?_, ?_, ?_⟩
        · rw [ihn]
          simp [acceptedRecords, List.filter_cons, hao]
        · rw [ihs]
          simp [acceptedRecords, List.filter_cons, hao]
        · rw [iha]
          simp [List.countP_cons, hpo]
        · rw [ihb]
          simp [List.countP_cons, hno]
          omega

theorem nodup_map_inj {α β : Type} {l : List α} {f : α → β}
    (hn : (l.map f).Nodup) :
    ∀ a ∈ l, ∀ b ∈ l, f a = f b → a = b := by
  induction l with
  | nil => intro a ha; simp at ha
  | cons x t ih =>
    simp only [List.map_cons, List.nodup_cons] at hn
    intro a ha b hb hf
    rcases List.mem_cons.mp ha with h1 | h1 <;>
      rcases List.mem_cons.mp hb with h2 | h2
    · rw [h1, h2]
    · exfalso
      refine hn.1 ?_
      rw [h1] at hf
      rw [hf]
      exact List.mem_map_of_mem f h2
    · exfalso
      refine hn.1 ?_
      rw [h2] at hf
      rw [← hf]
      exact List.mem_map_of_mem f h1
    · exact ih hn.2 a h1 b h2 hf

theorem accepted_ids_nodup (store : Store) {l : List Opp}
    (h : (l.map Opp.noticeId).Nodup) :
    ((acceptedRecords store l).map Opp.noticeId).Nodup :=
  List.Nodup.sublist (List.Sublist.map Opp.noticeId (List.filter_sublist l)) h

/-- What a successful collection cycle returns, in terms of the store it
started from and the merged record list. -/
theorem collect_daily_ok {store : Store} {now days : Nat}
    {qrs : List (List Opp)} {r : CollectResult}
    (h : collect_daily_opportunities store now days qrs = Except.ok r) :
    r.new_opportunities
        = acceptedRecords store ((mergeOpportunities qrs).map Prod.snd) ∧
      r.store
        = store ++ (acceptedRecords store
            ((mergeOpportunities qrs).map Prod.snd)).map (toEntry now) ∧
      r.already_collected
        = ((mergeOpportunities qrs).map Prod.snd).countP (isPresent store) ∧
      r.non_solicitation
        = ((mergeOpportunities qrs).map Prod.snd).countP (isNonSol store) ∧
      r.total_fetched = totalFetched qrs ∧
      r.saved = !(acceptedRecords store
        ((mergeOpportunities qrs).map Prod.snd)).isEmpty := by
  unfold collect_daily_opportunities at h
  by_cases hd : MAX_DAYS_RANGE < days
  · rw [if_pos hd] at h
    exact absurd h (by simp)
  · rw [if_neg hd] at h
    simp only [Except.ok.injEq] at h
    obtain ⟨hn, hs, ha, hb⟩ :=
      foldl_processOne_spec now ((mergeOpportunities qrs).map Prod.snd)
        ⟨[], store, 0, 0⟩ (merge_values_truthy qrs) (merge_values_ids_nodup qrs)
    rw [← h]
    refine ⟨?_, ?_, ?_, ?_, ?_, ?_⟩ <;> simp [hn, hs, ha, hb]

theorem foldl_insertOpp_filter_idless (q : List Opp) (d : List (String × Opp)) :
    (q.filter (fun o => !decide (o.noticeId = ""))).foldl insertOpp d
      = q.foldl insertOpp d := by
  induction q generalizing d with
  | nil => rfl
  | cons o t ih =>
    rw [List.filter_cons]
    by_cases h0 : o.noticeId = ""
    · have hskip : insertOpp d o = d := by rw [insertOpp, if_pos h0]
      simp only [List.foldl_cons, hskip, h0]
      simp only [decide_True, Bool.not_true, Bool.false_eq_true, if_false]
      exact ih d
    · simp only [List.foldl_cons, h0, decide_False, Bool.not_false, if_true]
      exact ih (insertOpp d o)

/-- Records with a missing or empty notice id never reach the merged dict:
filtering them out of every query result leaves the merge unchanged. -/
theorem merge_filter_idless (qrs : List (List Opp)) :
    mergeOpportunities
        (qrs.map (fun q => q.filter (fun o => !decide (o.noticeId = ""))))
      = mergeOpportunities qrs := by
  suffices h : ∀ (qrs : List (List Opp)) (d : List (String × Opp)),
      (qrs.map (fun q => q.filter (fun o => !decide (o.noticeId = "")))).foldl
          (fun d opps => opps.foldl insertOpp d) d
        = qrs.foldl (fun d opps => opps.foldl insertOpp d) d by
    exact h qrs []
  intro qrs
  induction qrs with
  | nil => intro d; rfl
  | cons q t ih =>
    intro d
    rw [List.map_cons, List.foldl_cons, List.foldl_cons,
      foldl_insertOpp_filter_idless, ih]

/-! ### Pagination lemmas over an honest upstream -/

/-- An upstream that serves pages of a fixed corpus `L`: it reports
`totalRecords = L.length` and returns the records in `[offset, offset +
limit)`. -/
def honestApi (L : List Opp) : Api :=
  fun req => Except.ok ⟨L.length, (L.drop req.offset).take req.limit⟩

theorem search_opportunities_ok (api : Api) (today : Nat) (pf pt : Int)
    (nc : Option (List String)) (limit offset : Nat) (st : ClientState)
    (hlast : st.last_collection_date = some today)
    (hq : st.daily_collections < MAX_DAILY_COLLECTIONS)
    (hnaics : validate_naics_codes nc = Except.ok ())
    (hrange : validate_date_range pf pt = Except.ok ())
    (hyear : ¬ (365 * 86400 : Int) < pt - pf) :
    search_opportunities api today pf pt nc limit offset st =
      match api (buildReq pf pt nc limit offset) with
      | Except.error e =>
        ⟨Except.error e, ⟨st.daily_collections + 1, some today⟩, 1⟩
      | Except.ok resp =>
        ⟨Except.ok resp, ⟨st.daily_collections + 1, some today⟩, 1⟩ := by
  have hcdl : check_daily_limit today st
      = (Except.ok (), ⟨st.daily_collections + 1, some today⟩) := by
    rw [check_daily_limit]
    simp [hlast, Nat.not_le.mpr hq]
  rw [search_opportunities, hcdl]
  simp only [hnaics, hrange]
  rw [if_neg hyear]

theorem loop_honest_last_page (L : List Opp) (fuel offset : Nat)
    (acc : List Opp) (d : Nat) (hd : d < MAX_DAILY_COLLECTIONS)
    (hne : ¬ (L.drop offset).take 500 = [])
    (hstop : L.length ≤ offset + 500) :
    get_all_loop (honestApi L) 0 0 86400 (some ["541511"]) 500 (fuel + 1)
        offset acc ⟨d, some 0⟩
      = ⟨acc ++ (L.drop offset).take 500, 1, ⟨d + 1, some 0⟩⟩ := by
  have hout : search_opportunities (honestApi L) 0 0 86400 (some ["541511"])
      500 offset ⟨d, some 0⟩
      = ⟨Except.ok ⟨L.length, (L.drop offset).take 500⟩, ⟨d + 1, some 0⟩, 1⟩ := by
    rw [search_opportunities_ok (honestApi L) 0 0 86400 (some ["541511"])
      500 offset ⟨d, some 0⟩ rfl hd (by decide) (by decide) (by decide)]
    simp [honestApi, buildReq]
  simp only [get_all_loop, hout]
  simp [List.isEmpty_iff, hne, hstop]

theorem loop_honest_step (L : List Opp) (fuel offset : Nat)
    (acc : List Opp) (d : Nat) (hd : d < MAX_DAILY_COLLECTIONS)
    (hne : ¬ (L.drop offset).take 500 = [])
    (hmore : ¬ L.length ≤ offset + 500) :
    get_all_loop (honestApi L) 0 0 86400 (some ["541511"]) 500 (fuel + 1)
        offset acc ⟨d, some 0⟩
      = ⟨(get_all_loop (honestApi L) 0 0 86400 (some ["541511"]) 500 fuel
            (offset + 500) (acc ++ (L.drop offset).take 500)
            ⟨d + 1, some 0⟩).records,
         1 + (get_all_loop (honestApi L) 0 0 86400 (some ["541511"]) 500 fuel
            (offset + 500) (acc ++ (L.drop offset).take 500)
            ⟨d + 1, some 0⟩).requests,
         (get_all_loop (honestApi L) 0 0 86400 (some ["541511"]) 500 fuel
            (offset + 500) (acc ++ (L.drop offset).take 500)
            ⟨d + 1, some 0⟩).state⟩ := by
  have hout : search_opportunities (honestApi L) 0 0 86400 (some ["541511"])
      500 offset ⟨d, some 0⟩
      = ⟨Except.ok ⟨L.length, (L.drop offset).take 500⟩, ⟨d + 1, some 0⟩, 1⟩ := by
    rw [search_opportunities_ok (honestApi L) 0 0 86400 (some ["541511"])
      500 offset ⟨d, some 0⟩ rfl hd (by decide) (by decide) (by decide)]
    simp [honestApi, buildReq]
  simp only [get_all_loop, hout]
  simp [List.isEmpty_iff, hne, hmore]

theorem get_all_honest_single (L : List Opp) (fuel : Nat) (hne : L ≠ [])
    (hlen : L.length ≤ 500) :
    get_all_opportunities (honestApi L) 0 0 86400 (some ["541511"])
        ⟨0, some 0⟩ (fuel + 1)
      = ⟨Except.ok L, 1, ⟨1, some 0⟩⟩ := by
  have hpage : (L.drop 0).take 500 = L := by
    rw [List.drop_zero, List.take_of_length_le hlen]
  have h1 := loop_honest_last_page L fuel 0 [] 0 (by decide)
    (by rw [hpage]; exact hne) (by omega)
  rw [get_all_opportunities]
  simp only [show validate_naics_codes (some ["541511"]) = Except.ok () from by decide,
    show validate_date_range 0 86400 = Except.ok () from by decide]
  rw [h1, hpage]
  simp

theorem get_all_honest_600 (L : List Opp) (fuel : Nat)
    (hlen : L.length = 600) :
    get_all_opportunities (honestApi L) 0 0 86400 (some ["541511"])
        ⟨0, some 0⟩ (fuel + 2)
      = ⟨Except.ok L, 2, ⟨2, some 0⟩⟩ := by
  have hp1 : (L.drop 0).take 500 = L.take 500 := by rw [List.drop_zero]
  have hlen1 : (L.take 500).length = 500 := by
    rw [List.length_take, hlen]
    omega
  have hne1 : ¬ (L.drop 0).take 500 = [] := by
    rw [hp1]
    intro hc
    rw [hc] at hlen1
    simp at hlen1
  have hlen2 : (L.drop 500).length = 100 := by
    rw [List.length_drop, hlen]
  have hp2 : (L.drop 500).take 500 = L.drop 500 :=
    List.take_of_length_le (by omega)
  have hne2 : ¬ (L.drop 500).take 500 = [] := by
    rw [hp2]
    intro hc
    rw [hc] at hlen2
    simp at hlen2
  have hstep := loop_honest_step L (fuel + 1) 0 [] 0 (by decide) hne1
    (by omega)
  have hlast := loop_honest_last_page L fuel 500 ([] ++ (L.drop 0).take 500) 1
    (by decide) hne2 (by omega)
  rw [get_all_opportunities]
  simp only [show validate_naics_codes (some ["541511"]) = Except.ok () from by decide,
    show validate_date_range 0 86400 = Except.ok () from by decide]
  rw [hstep, hlast]
  simp [hp1, hp2, List.take_append_drop]

theorem get_all_honest_empty (fuel : Nat) :
    get_all_opportunities (honestApi []) 0 0 86400 (some ["541511"])
        ⟨0, some 0⟩ (fuel + 1)
      = ⟨Except.ok [], 1, ⟨1, some 0⟩⟩ := by
  have hout : search_opportunities (honestApi []) 0 0 86400 (some ["541511"])
      500 0 ⟨0, some 0⟩
      = ⟨Except.ok ⟨0, []⟩, ⟨1, some 0⟩, 1⟩ := by
    rw [search_opportunities_ok (honestApi []) 0 0 86400 (some ["541511"])
      500 0 ⟨0, some 0⟩ rfl (by decide) (by decide) (by decide) (by decide)]
    simp [honestApi, buildReq]
  rw [get_all_opportunities]
  simp only [show validate_naics_codes (some ["541511"]) = Except.ok () from by decide,
    show validate_date_range 0 86400 = Except.ok () from by decide]
  simp only [get_all_loop, hout]
  simp

/-! ### Validation-path lemmas -/

/-- Rewrites `_check_daily_limit` in closed form: reset first, then test, then
increment. -/
theorem check_daily_limit_eq (today : Nat) (st : ClientState) :
    check_daily_limit today st =
      (if MAX_DAILY_COLLECTIONS ≤
          (if st.last_collection_date = some today then st
            else ⟨0, some today⟩).daily_collections then
        (Except.error SamError.dailyLimit,
         if st.last_collection_date = some today then st else ⟨0, some today⟩)
      else
        (Except.ok (),
         ⟨(if st.last_collection_date = some today then st
            else ⟨0, some today⟩).daily_collections + 1, some today⟩)) := by
  rw [check_daily_limit]
  by_cases hl : st.last_collection_date = some today
  · simp [hl]
  · simp [hl]

theorem validate_naics_codes_over (codes : List String)
    (h : MAX_NAICS_CODES < codes.length) :
    validate_naics_codes (some codes)
      = Except.error (SamError.tooManyNaics codes.length) := by
  have hne : codes.isEmpty = false := by
    have hc : codes ≠ [] := List.ne_nil_of_length_pos (by omega)
    simp [List.isEmpty_iff, hc]
  simp [validate_naics_codes, hne, h]

theorem validate_date_range_over (pf pt : Int)
    (h : (MAX_DAYS_RANGE : Int) < Int.fdiv (pt - pf) 86400) :
    validate_date_range pf pt
      = Except.error (SamError.dateRangeTooWide (Int.fdiv (pt - pf) 86400)) := by
  simp [validate_date_range, h]

theorem validate_date_range_ok (pf pt : Int)
    (h : Int.fdiv (pt - pf) 86400 ≤ (MAX_DAYS_RANGE : Int)) :
    validate_date_range pf pt = Except.ok () := by
  simp [validate_date_range, not_lt.mpr h]

/-- A call made when the (same-day) quota is exhausted raises the quota
error, leaves the counter untouched, and issues no network request. -/
theorem search_quota_exhausted (api : Api) (today : Nat) (pf pt : Int)
    (nc : Option (List String)) (limit offset : Nat) (st : ClientState)
    (hl : st.last_collection_date = some today)
    (hq : MAX_DAILY_COLLECTIONS ≤ st.daily_collections) :
    search_opportunities api today pf pt nc limit offset st
      = ⟨Except.error SamError.dailyLimit, st, 0⟩ := by
  have hcdl : check_daily_limit today st
      = (Except.error SamError.dailyLimit, st) := by
    rw [check_daily_limit_eq]
    simp [hl, hq]
  rw [search_opportunities, hcdl]

/-! ### Claim C1 -/

/-- A 51-entry filter list for the compliance-gating scenario. -/
def codes51 : List String := List.replicate 51 "541511"

/-- C1 (amended): a `search_opportunities` call with more than 50 filter
values is rejected with an error before any network request, but a call IS
recorded against the daily quota: unless the (possibly reset) counter has
already reached the ceiling — in which case the quota error is raised and
the counter stays put — the counter ends one above its value after the
daily reset. -/
theorem search_oversized_filter_rejected_but_quota_counted
    (api : Api) (today : Nat) (pf pt : Int) (codes : List String)
    (limit offset : Nat) (st : ClientState)
    (hlen : MAX_NAICS_CODES < codes.length) :
    ((if st.last_collection_date = some today then st
        else ⟨0, some today⟩).daily_collections < MAX_DAILY_COLLECTIONS →
      search_opportunities api today pf pt (some codes) limit offset st
        = ⟨Except.error (SamError.tooManyNaics codes.length),
           ⟨(if st.last_collection_date = some today then st
              else ⟨0, some today⟩).daily_collections + 1, some today⟩, 0⟩) ∧
    (MAX_DAILY_COLLECTIONS ≤ (if st.last_collection_date = some today then st
        else ⟨0, some today⟩).daily_collections →
      search_opportunities api today pf pt (some codes) limit offset st
        = ⟨Except.error SamError.dailyLimit,
           (if st.last_collection_date = some today then st
             else ⟨0, some today⟩), 0⟩) := by
  have hvn := validate_naics_codes_over codes hlen
  constructor
  · intro hq
    have hcdl : check_daily_limit today st
        = (Except.ok (),
           ⟨(if st.last_collection_date = some today then st
              else ⟨0, some today⟩).daily_collections + 1, some today⟩) := by
      rw [check_daily_limit_eq, if_neg (Nat.not_le.mpr hq)]
    rw [search_opportunities, hcdl]
    simp [hvn]
  · intro hq
    have hcdl : check_daily_limit today st
        = (Except.error SamError.dailyLimit,
           if st.last_collection_date = some today then st
             else ⟨0, some today⟩) := by
      rw [check_daily_limit_eq, if_pos hq]
    rw [search_opportunities, hcdl]

/-- C1 counterexample: with a fresh same-day state (counter 0) a 51-value
call is rejected before the network — but the daily counter afterwards is
1, not 0, so the claim that "no call is recorded against the daily quota"
fails on this input. -/
theorem search_oversized_filter_quota_counter_changes :
    (search_opportunities (fun _ => Except.error SamError.transport) 0 0 86400
        (some codes51) 100 0 ⟨0, some 0⟩).result
      = Except.error (SamError.tooManyNaics 51) ∧
    (search_opportunities (fun _ => Except.error SamError.transport) 0 0 86400
        (some codes51) 100 0 ⟨0, some 0⟩).network_calls = 0 ∧
    (search_opportunities (fun _ => Except.error SamError.transport) 0 0 86400
        (some codes51) 100 0 ⟨0, some 0⟩).state.daily_collections = 1 ∧
    (1 : Nat) ≠ 0 := by
  refine ⟨?_, ?_, ?_, by decide⟩ <;> decide

/-- C1 witness: the amended theorem applied at a concrete fresh state. -/
theorem search_oversized_filter_quota_witness :
    search_opportunities (fun _ => Except.error SamError.transport) 0 0 86400
        (some codes51) 100 0 ⟨0, some 0⟩
      = ⟨Except.error (SamError.tooManyNaics codes51.length), ⟨1, some 0⟩, 0⟩ :=
  (search_oversized_filter_rejected_but_quota_counted
    (fun _ => Except.error SamError.transport) 0 0 86400 codes51 100 0
    ⟨0, some 0⟩ (by decide)).1 (by decide)

/-! ### Claim C7 -/

/-- C7 (amended): filter-count and date-range compliance violations are
surfaced by both `search_opportunities` and `get_all_opportunities`, and a
daily-quota violation is surfaced by `search_opportunities`; but a
daily-quota violation that arises during a page fetch inside
`get_all_opportunities` is caught by the pagination loop, which stops and
returns the partial result with no error. -/
theorem compliance_violation_surfacing :
    (∀ (api : Api) (today : Nat) (pf pt : Int) (codes : List String)
        (st : ClientState) (fuel : Nat), MAX_NAICS_CODES < codes.length →
      get_all_opportunities api today pf pt (some codes) st fuel
        = ⟨Except.error (SamError.tooManyNaics codes.length), 0, st⟩) ∧
    (∀ (api : Api) (today : Nat) (pf pt : Int) (nc : Option (List String))
        (st : ClientState) (fuel : Nat),
      validate_naics_codes nc = Except.ok () →
      (MAX_DAYS_RANGE : Int) < Int.fdiv (pt - pf) 86400 →
      get_all_opportunities api today pf pt nc st fuel
        = ⟨Except.error (SamError.dateRangeTooWide (Int.fdiv (pt - pf) 86400)),
           0, st⟩) ∧
    (∀ (api : Api) (today : Nat) (pf pt : Int) (nc : Option (List String))
        (limit offset : Nat) (st : ClientState),
      st.last_collection_date = some today →
      MAX_DAILY_COLLECTIONS ≤ st.daily_collections →
      search_opportunities api today pf pt nc limit offset st
        = ⟨Except.error SamError.dailyLimit, st, 0⟩) ∧
    (∀ (api : Api) (today : Nat) (pf pt : Int) (nc : Option (List String))
        (st : ClientState) (fuel : Nat),
      validate_naics_codes nc = Except.ok () →
      validate_date_range pf pt = Except.ok () →
      st.last_collection_date = some today →
      MAX_DAILY_COLLECTIONS ≤ st.daily_collections →
      get_all_opportunities api today pf pt nc st (fuel + 1)
        = ⟨Except.ok [], 0, st⟩) := by
  refine ⟨?_, ?_, ?_, ?_⟩
  · intro api today pf pt codes st fuel hlen
    rw [get_all_opportunities]
    simp [validate_naics_codes_over codes hlen]
  · intro api today pf pt nc st fuel hnaics hr
    rw [get_all_opportunities]
    simp [hnaics, validate_date_range_over pf pt hr]
  · intro api today pf pt nc limit offset st hl hq
    exact search_quota_exhausted api today pf pt nc limit offset st hl hq
  · intro api today pf pt nc st fuel hnaics hrange hl hq
    have hs := search_quota_exhausted api today pf pt nc 500 0 st hl hq
    rw [get_all_opportunities]
    simp only [hnaics, hrange, get_all_loop, hs]

/-- C7 counterexample: with the quota for today already exhausted, the quota
violation raised by the page fetch inside `get_all_opportunities` is
swallowed: the call returns `ok []` with no error, although the same fetch
performed through `search_opportunities` raises. -/
theorem quota_violation_swallowed_in_fetchAll :
    (search_opportunities (fun _ => Except.error SamError.transport) 0 0 86400
        (some ["541511"]) 500 0 ⟨100, some 0⟩).result
      = Except.error SamError.dailyLimit ∧
    get_all_opportunities (fun _ => Except.error SamError.transport) 0 0 86400
        (some ["541511"]) ⟨100, some 0⟩ 5
      = ⟨Except.ok [], 0, ⟨100, some 0⟩⟩ := by
  refine ⟨?_, ?_⟩ <;> decide

/-- C7 witness: the amended theorem applied at concrete inputs for each
conjunct. -/
theorem compliance_violation_surfacing_witness :
    get_all_opportunities (fun _ => Except.error SamError.transport) 0 0 86400
        (some codes51) ⟨0, some 0⟩ 3
      = ⟨Except.error (SamError.tooManyNaics codes51.length), 0, ⟨0, some 0⟩⟩ ∧
    get_all_opportunities (fun _ => Except.error SamError.transport) 0 0
        (100 * 86400) (some ["541511"]) ⟨0, some 0⟩ 3
      = ⟨Except.error (SamError.dateRangeTooWide
          (Int.fdiv (100 * 86400 - 0) 86400)), 0, ⟨0, some 0⟩⟩ ∧
    search_opportunities (fun _ => Except.error SamError.transport) 0 0 86400
        (some ["541511"]) 500 0 ⟨100, some 0⟩
      = ⟨Except.error SamError.dailyLimit, ⟨100, some 0⟩, 0⟩ ∧
    get_all_opportunities (fun _ => Except.error SamError.transport) 0 0 86400
        (some ["541511"]) ⟨100, some 0⟩ 4
      = ⟨Except.ok [], 0, ⟨100, some 0⟩⟩ :=
  ⟨compliance_violation_surfacing.1
      (fun _ => Except.error SamError.transport) 0 0 86400 codes51
      ⟨0, some 0⟩ 3 (by decide),
   compliance_violation_surfacing.2.1
      (fun _ => Except.error SamError.transport) 0 0 (100 * 86400)
      (some ["541511"]) ⟨0, some 0⟩ 3 (by decide) (by decide),
   compliance_violation_surfacing.2.2.1
      (fun _ => Except.error SamError.transport) 0 0 86400 (some ["541511"])
      500 0 ⟨100, some 0⟩ rfl (by decide),
   compliance_violation_surfacing.2.2.2
      (fun _ => Except.error SamError.transport) 0 0 86400 (some ["541511"])
      ⟨100, some 0⟩ 3 (by decide) (by decide) rfl (by decide)⟩

/-! ### Claim C8 -/

/-- C8 (amended): `search_opportunities` rejects, with an error and zero
network requests, every window whose width *in floored whole days*
(`timedelta.days`) exceeds the 90-day compliance ceiling, and likewise
every window whose width in seconds exceeds the 365-day protocol maximum;
windows whose floored width is within the compliance ceiling pass the date
validation, and when the other preconditions hold the original, unclamped
window is what reaches the network (the request carries `posted_from` and
`posted_to` unmodified).  A window that exceeds 90 days by less than a full
day is NOT rejected (see the counterexample), which is why the claimed
"width exceeds the 90-day ceiling" must be read at whole-day granularity. -/
theorem window_width_validation (api : Api) (today : Nat) (pf pt : Int)
    (nc : Option (List String)) (limit offset : Nat) (st : ClientState) :
    ((MAX_DAYS_RANGE : Int) < Int.fdiv (pt - pf) 86400 →
      (∃ e, (search_opportunities api today pf pt nc limit offset st).result
          = Except.error e) ∧
      (search_opportunities api today pf pt nc limit offset st).network_calls
        = 0) ∧
    ((365 * 86400 : Int) < pt - pf →
      (∃ e, (search_opportunities api today pf pt nc limit offset st).result
          = Except.error e) ∧
      (search_opportunities api today pf pt nc limit offset st).network_calls
        = 0) ∧
    (Int.fdiv (pt - pf) 86400 ≤ (MAX_DAYS_RANGE : Int) →
      validate_date_range pf pt = Except.ok ()) ∧
    (Int.fdiv (pt - pf) 86400 ≤ (MAX_DAYS_RANGE : Int) →
      pt - pf ≤ 365 * 86400 →
      validate_naics_codes nc = Except.ok () →
      st.last_collection_date = some today →
      st.daily_collections < MAX_DAILY_COLLECTIONS →
      (search_opportunities api today pf pt nc limit offset st).network_calls
        = 1) ∧
    (buildReq pf pt nc limit offset).postedFrom = pf ∧
    (buildReq pf pt nc limit offset).postedTo = pt := by
  refine ⟨?_, ?_, ?_, ?_, rfl, rfl⟩
  · intro hw
    rw [search_opportunities]
    rcases hc : check_daily_limit today st with ⟨res, st1⟩
    cases res with
    | error e => exact ⟨⟨e, by simp⟩, by simp⟩
    | ok u =>
      cases hv : validate_naics_codes nc with
      | error e => exact ⟨⟨e, by simp [hv]⟩, by simp [hv]⟩
      | ok u2 =>
        have hr := validate_date_range_over pf pt hw
        exact ⟨⟨SamError.dateRangeTooWide (Int.fdiv (pt - pf) 86400),
          by simp [hv, hr]⟩, by simp [hv, hr]⟩
  · intro hw
    rw [search_opportunities]
    rcases hc : check_daily_limit today st with ⟨res, st1⟩
    cases res with
    | error e => exact ⟨⟨e, by simp⟩, by simp⟩
    | ok u =>
      cases hv : validate_naics_codes nc with
      | error e => exact ⟨⟨e, by simp [hv]⟩, by simp [hv]⟩
      | ok u2 =>
        cases hdr : validate_date_range pf pt with
        | error e => exact ⟨⟨e, by simp [hv, hdr]⟩, by simp [hv, hdr]⟩
        | ok u3 =>
          have hw2 : (31536000 : Int) < pt - pf := by omega
          exact ⟨⟨SamError.dateRangeOverYear, by simp [hv, hdr, hw2]⟩,
            by simp [hv, hdr, hw2]⟩
  · intro hw
    exact validate_date_range_ok pf pt hw
  · intro hw hyear hnaics hl hq
    rw [search_opportunities_ok api today pf pt nc limit offset st hl hq
      hnaics (validate_date_range_ok pf pt hw) (not_lt.mpr hyear)]
    cases api (buildReq pf pt nc limit offset) <;> rfl

/-- C8 counterexample: the window `[0, 90 days + 1 hour]` exceeds the
90-day ceiling in seconds, yet `timedelta.days` floors it to 90, so the
call passes both range validations and reaches the network. -/
theorem oversized_window_reaches_network :
    ((90 : Int) * 86400 < (90 * 86400 + 3600) - 0) ∧
    (search_opportunities (fun _ => Except.ok ⟨0, []⟩) 0 0 (90 * 86400 + 3600)
        (some ["541511"]) 100 0 ⟨0, some 0⟩).result = Except.ok ⟨0, []⟩ ∧
    (search_opportunities (fun _ => Except.ok ⟨0, []⟩) 0 0 (90 * 86400 + 3600)
        (some ["541511"]) 100 0 ⟨0, some 0⟩).network_calls = 1 := by
  refine ⟨by decide, ?_, ?_⟩ <;> decide

/-- C8 witness: the amended theorem applied at concrete windows, both an
oversized one and one inside the ceilings. -/
theorem window_width_validation_witness :
    ((∃ e, (search_opportunities (fun _ => Except.ok ⟨0, []⟩) 0 0
        (91 * 86400 + 1) (some ["541511"]) 100 0 ⟨0, some 0⟩).result
        = Except.error e) ∧
      (search_opportunities (fun _ => Except.ok ⟨0, []⟩) 0 0 (91 * 86400 + 1)
        (some ["541511"]) 100 0 ⟨0, some 0⟩).network_calls = 0) ∧
    validate_date_range 0 86400 = Except.ok () ∧
    (search_opportunities (fun _ => Except.ok ⟨0, []⟩) 0 0 86400
      (some ["541511"]) 100 0 ⟨0, some 0⟩).network_calls = 1 :=
  ⟨(window_width_validation (fun _ => Except.ok ⟨0, []⟩) 0 0 (91 * 86400 + 1)
      (some ["541511"]) 100 0 ⟨0, some 0⟩).1 (by decide),
   (window_width_validation (fun _ => Except.ok ⟨0, []⟩) 0 0 86400
      (some ["541511"]) 100 0 ⟨0, some 0⟩).2.2.1 (by decide),
   (window_width_validation (fun _ => Except.ok ⟨0, []⟩) 0 0 86400
      (some ["541511"]) 100 0 ⟨0, some 0⟩).2.2.2.1 (by decide) (by decide)
      (by decide) rfl (by decide)⟩

/-! ### Claim C3 -/

/-- A concrete 150-record corpus with pairwise distinct records. -/
def demo150 : List Opp := (List.range 150).map (fun i => ⟨toString i, "t", i⟩)

/-- A concrete 600-record corpus with pairwise distinct records. -/
def demo600 : List Opp := (List.range 600).map (fun i => ⟨toString i, "t", i⟩)

/-- C3 (amended): `get_all_opportunities` pages with its fixed page size of
500 (not 100), advancing the offset by 500 and stopping when a page is
empty or `offset + 500 ≥ totalRecords`.  Against an honest upstream
reporting `totalRecords = 150` it therefore issues exactly ONE page request
and returns all 150 records; two page requests arise at e.g. `totalRecords
= 600`; an upstream with no records costs one request and returns none. -/
theorem pagination_fixed_page_size_500 :
    (∀ (L : List Opp) (fuel : Nat), L.length = 150 →
      get_all_opportunities (honestApi L) 0 0 86400 (some ["541511"])
          ⟨0, some 0⟩ (fuel + 1)
        = ⟨Except.ok L, 1, ⟨1, some 0⟩⟩) ∧
    (∀ (L : List Opp) (fuel : Nat), L.length = 600 →
      get_all_opportunities (honestApi L) 0 0 86400 (some ["541511"])
          ⟨0, some 0⟩ (fuel + 2)
        = ⟨Except.ok L, 2, ⟨2, some 0⟩⟩) ∧
    (∀ fuel : Nat,
      get_all_opportunities (honestApi []) 0 0 86400 (some ["541511"])
          ⟨0, some 0⟩ (fuel + 1)
        = ⟨Except.ok [], 1, ⟨1, some 0⟩⟩) := by
  refine ⟨?_, ?_, get_all_honest_empty⟩
  · intro L fuel hlen
    refine get_all_honest_single L fuel ?_ (by omega)
    intro hc
    rw [hc] at hlen
    simp at hlen
  · intro L fuel hlen
    exact get_all_honest_600 L fuel hlen

/-- C3 counterexample: against an upstream reporting `totalRecords = 150`
the code issues exactly one page request (its page size is 500), not the
two requests the claim predicts for a page size of 100. -/
theorem pagination_150_records_single_request :
    get_all_opportunities (honestApi demo150) 0 0 86400 (some ["541511"])
        ⟨0, some 0⟩ 3
      = ⟨Except.ok demo150, 1, ⟨1, some 0⟩⟩ ∧
    demo150.length = 150 ∧
    (1 : Nat) ≠ 2 := by
  refine ⟨?_, by simp [demo150], by decide⟩
  have h := get_all_honest_single demo150 2 (by simp [demo150])
    (by simp [demo150])
  exact h

/-- C3 witness: the amended theorem applied at the concrete corpora. -/
theorem pagination_fixed_page_size_500_witness :
    get_all_opportunities (honestApi demo600) 0 0 86400 (some ["541511"])
        ⟨0, some 0⟩ 2
      = ⟨Except.ok demo600, 2, ⟨2, some 0⟩⟩ ∧
    get_all_opportunities (honestApi []) 0 0 86400 (some ["541511"])
        ⟨0, some 0⟩ 1
      = ⟨Except.ok [], 1, ⟨1, some 0⟩⟩ :=
  ⟨pagination_fixed_page_size_500.2.1 demo600 0 (by simp [demo600]),
   pagination_fixed_page_size_500.2.2 0⟩

/-! ### Claim C2 -/

/-- Record 1 of the merge example. -/
def oppA1 : Opp := ⟨"1", "Solicitation", 1⟩

/-- Record 2 of the merge example. -/
def oppA2 : Opp := ⟨"2", "Solicitation", 2⟩

/-- Record 3 as returned for filter value A. -/
def oppA3 : Opp := ⟨"3", "Solicitation", 3⟩

/-- Record 3 as returned for filter value B (same id, later write). -/
def oppB3 : Opp := ⟨"3", "Solicitation", 30⟩

/-- Record 4 of the merge example. -/
def oppB4 : Opp := ⟨"4", "Solicitation", 4⟩

/-- Merge example of the specification: upstream returns records 1, 2, 3
for filter value A and records 3, 4 for filter value B. -/
def demoQueries : List (List Opp) := [[oppA1, oppA2, oppA3], [oppB3, oppB4]]

/-- C2: the merge step is exactly the by-identifier union of the per-query
`fetchAll` results with last-write-wins (for every non-empty identifier,
the merged dict holds the last record fetched under that identifier, in
query order), and it reports the raw fetched total (sum of per-query
sizes) against the unique count after merge; on the {1,2,3} / {3,4}
example it returns exactly {1,2,3,4} with the value at "3" coming from the
second query, and reports 5 raw vs 4 unique. -/
theorem merge_union_last_write_wins :
    (∀ (queryResults : List (List Opp)) (key : String), key ≠ "" →
      alookup (mergeOpportunities queryResults) key
        = lastFetched queryResults key) ∧
    (mergeOpportunities demoQueries).map Prod.snd
      = [oppA1, oppA2, oppB3, oppB4] ∧
    totalFetched demoQueries = 5 ∧
    (mergeOpportunities demoQueries).length = 4 ∧
    alookup (mergeOpportunities demoQueries) "3" = some oppB3 := by
  refine ⟨?_, by decide, by decide, by decide, by decide⟩
  intro queryResults key hk
  exact alookup_merge queryResults hk

/-- C2 witness: the union/last-write-wins part applied to the example at
the duplicated key. -/
theorem merge_union_last_write_wins_witness :
    ("3" : String) ≠ "" ∧
    alookup (mergeOpportunities demoQueries) "3" = lastFetched demoQueries "3" :=
  ⟨by decide, merge_union_last_write_wins.1 demoQueries "3" (by decide)⟩

/-! ### Claim C4 -/

/-- A concrete solicitation record used to witness the collector claims. -/
def oppSol : Opp := ⟨"a", "Solicitation", 7⟩

/-- C4: running the collection cycle twice in immediate succession, with
the upstream returning the same records both times, accepts nothing on the
second run and leaves the store (and hence its entry count) unchanged. -/
theorem collect_twice_idempotent (store : Store) (now1 now2 days : Nat)
    (qrs : List (List Opp)) (r1 r2 : CollectResult)
    (h1 : collect_daily_opportunities store now1 days qrs = Except.ok r1)
    (h2 : collect_daily_opportunities r1.store now2 days qrs = Except.ok r2) :
    r2.new_opportunities = [] ∧ r2.store = r1.store ∧
    r2.store.length = r1.store.length := by
  obtain ⟨hn1, hs1, _, _, _, _⟩ := collect_daily_ok h1
  obtain ⟨hn2, hs2, _, _, _, _⟩ := collect_daily_ok h2
  have hnd : (((mergeOpportunities qrs).map Prod.snd).map Opp.noticeId).Nodup :=
    merge_values_ids_nodup qrs
  have hacc2 : acceptedRecords r1.store ((mergeOpportunities qrs).map Prod.snd)
      = [] := by
    rw [acceptedRecords, List.filter_eq_nil_iff]
    intro o ho hcA
    rw [isAccepted, Bool.and_eq_true] at hcA
    obtain ⟨hnp, hsol⟩ := hcA
    have hpres : isPresent r1.store o = true := by
      rw [isPresent, hs1]
      cases hs0 : alookup store o.noticeId with
      | some v =>
        rw [alookup_append_some _ hs0]
        rfl
      | none =>
        have hoacc : o ∈ acceptedRecords store
            ((mergeOpportunities qrs).map Prod.snd) := by
          rw [acceptedRecords, List.mem_filter]
          refine ⟨ho, ?_⟩
          rw [isAccepted, isPresent, hs0, hsol]
          rfl
        rw [alookup_append_none _ hs0,
          alookup_toEntry_of_mem now1 (accepted_ids_nodup store hnd) hoacc]
        rfl
    rw [hpres] at hnp
    exact absurd hnp (by decide)
  refine ⟨?_, ?_, ?_⟩
  · rw [hn2, hacc2]
  · rw [hs2, hacc2]
    simp
  · rw [hs2, hacc2]
    simp

/-- C4 witness: a concrete double run over a one-record upstream. -/
theorem collect_twice_idempotent_witness :
    (CollectResult.mk [] [("a", ⟨5, oppSol⟩)] 1 1 0 false).new_opportunities
      = [] ∧
    (CollectResult.mk [] [("a", ⟨5, oppSol⟩)] 1 1 0 false).store
      = (CollectResult.mk [oppSol] [("a", ⟨5, oppSol⟩)] 1 0 0 true).store ∧
    (CollectResult.mk [] [("a", ⟨5, oppSol⟩)] 1 1 0 false).store.length
      = (CollectResult.mk [oppSol] [("a", ⟨5, oppSol⟩)] 1 0 0 true).store.length :=
  collect_twice_idempotent [] 5 6 1 [[oppSol]]
    (CollectResult.mk [oppSol] [("a", ⟨5, oppSol⟩)] 1 0 0 true)
    (CollectResult.mk [] [("a", ⟨5, oppSol⟩)] 1 1 0 false)
    (by decide) (by decide)

/-! ### Claim C5 -/

/-- C5: every identifier already present in the store before a cycle keeps
exactly its old entry — same collected timestamp, same payload, never
deleted — and the cycle counts merged records whose identifier is already
stored in the `already_collected` bucket instead of overwriting them. -/
theorem collect_preserves_existing_entries (store : Store) (now days : Nat)
    (qrs : List (List Opp)) (r : CollectResult) (key : String)
    (h : collect_daily_opportunities store now days qrs = Except.ok r)
    (hkey : (alookup store key).isSome = true) :
    alookup r.store key = alookup store key ∧
    r.already_collected
      = ((mergeOpportunities qrs).map Prod.snd).countP (isPresent store) := by
  obtain ⟨_, hs, ha, _, _, _⟩ := collect_daily_ok h
  refine ⟨?_, ha⟩
  rw [hs]
  cases hv : alookup store key with
  | some v => rw [alookup_append_some _ hv]
  | none =>
    rw [hv] at hkey
    exact absurd hkey (by decide)

/-- C5 witness: applied with a store already holding the incoming id. -/
theorem collect_preserves_existing_entries_witness :
    alookup (CollectResult.mk [] [("a", ⟨5, oppSol⟩)] 1 1 0 false).store "a"
      = alookup [("a", (⟨5, oppSol⟩ : StoredRecord))] "a" ∧
    (CollectResult.mk [] [("a", ⟨5, oppSol⟩)] 1 1 0 false).already_collected
      = ((mergeOpportunities [[oppSol]]).map Prod.snd).countP
          (isPresent [("a", ⟨5, oppSol⟩)]) :=
  collect_preserves_existing_entries [("a", ⟨5, oppSol⟩)] 6 1 [[oppSol]]
    (CollectResult.mk [] [("a", ⟨5, oppSol⟩)] 1 1 0 false) "a"
    (by decide) (by decide)

/-! ### Claim C6 -/

/-- C6: a fetched, merged record with a fresh identifier is accepted and
stored exactly when its type contains the substring "Solicitation"; a
non-matching record is never stored and lands in the non-solicitation
bucket; "Solicitation (Original)" matches and "Sources Sought" does not. -/
theorem type_filter_governs_acceptance (store : Store) (now days : Nat)
    (qrs : List (List Opp)) (r : CollectResult) (opp : Opp)
    (h : collect_daily_opportunities store now days qrs = Except.ok r)
    (hmem : opp ∈ (mergeOpportunities qrs).map Prod.snd)
    (habs : alookup store opp.noticeId = none) :
    ((opp ∈ r.new_opportunities) ↔ strContains opp.type "Solicitation" = true) ∧
    (alookup r.store opp.noticeId = some ⟨now, opp⟩
      ↔ strContains opp.type "Solicitation" = true) ∧
    (strContains opp.type "Solicitation" = false →
      alookup r.store opp.noticeId = none) ∧
    r.non_solicitation
      = ((mergeOpportunities qrs).map Prod.snd).countP (isNonSol store) ∧
    strContains "Solicitation (Original)" "Solicitation" = true ∧
    strContains "Sources Sought" "Solicitation" = false := by
  obtain ⟨hn, hs, _, hb, _, _⟩ := collect_daily_ok h
  have hnd : (((mergeOpportunities qrs).map Prod.snd).map Opp.noticeId).Nodup :=
    merge_values_ids_nodup qrs
  have hacc_mem : opp ∈ acceptedRecords store
      ((mergeOpportunities qrs).map Prod.snd)
      ↔ strContains opp.type "Solicitation" = true := by
    rw [acceptedRecords, List.mem_filter]
    constructor
    · rintro ⟨_, hp⟩
      rw [isAccepted, Bool.and_eq_true] at hp
      exact hp.2
    · intro hsol
      refine ⟨hmem, ?_⟩
      rw [isAccepted, isPresent, habs, hsol]
      rfl
  refine ⟨?_, ?_, ?_, hb, by decide, by decide⟩
  · rw [hn]
    exact hacc_mem
  · rw [hs, alookup_append_none _ habs]
    constructor
    · intro hsome
      by_cases hsol : strContains opp.type "Solicitation" = true
      · exact hsol
      · exfalso
        have hzero : alookup ((acceptedRecords store
            ((mergeOpportunities qrs).map Prod.snd)).map (toEntry now))
            opp.noticeId = none := by
          apply alookup_toEntry_eq_none
          intro x hx hceq
          rw [acceptedRecords] at hx
          obtain ⟨hxm, hxp⟩ := List.mem_filter.mp hx
          have hxeq : x = opp := nodup_map_inj hnd x hxm opp hmem hceq
          rw [hxeq, isAccepted, Bool.and_eq_true] at hxp
          exact hsol hxp.2
        rw [hzero] at hsome
        exact absurd hsome (by simp)
    · intro hsol
      exact alookup_toEntry_of_mem now (accepted_ids_nodup store hnd)
        (hacc_mem.mpr hsol)
  · intro hsolf
    rw [hs, alookup_append_none _ habs]
    apply alookup_toEntry_eq_none
    intro x hx hceq
    rw [acceptedRecords] at hx
    obtain ⟨hxm, hxp⟩ := List.mem_filter.mp hx
    have hxeq : x = opp := nodup_map_inj hnd x hxm opp hmem hceq
    rw [hxeq, isAccepted, Bool.and_eq_true] at hxp
    rw [hxp.2] at hsolf
    exact absurd hsolf (by decide)

/-- C6 witness: applied to a fresh solicitation record over an empty
store. -/
theorem type_filter_governs_acceptance_witness :
    ((oppSol ∈ (CollectResult.mk [oppSol] [("a", ⟨5, oppSol⟩)] 1 0 0
        true).new_opportunities)
      ↔ strContains oppSol.type "Solicitation" = true) ∧
    (alookup (CollectResult.mk [oppSol] [("a", ⟨5, oppSol⟩)] 1 0 0
        true).store oppSol.noticeId = some ⟨5, oppSol⟩
      ↔ strContains oppSol.type "Solicitation" = true) ∧
    (strContains oppSol.type "Solicitation" = false →
      alookup (CollectResult.mk [oppSol] [("a", ⟨5, oppSol⟩)] 1 0 0
        true).store oppSol.noticeId = none) ∧
    (CollectResult.mk [oppSol] [("a", ⟨5, oppSol⟩)] 1 0 0
        true).non_solicitation
      = ((mergeOpportunities [[oppSol]]).map Prod.snd).countP (isNonSol []) ∧
    strContains "Solicitation (Original)" "Solicitation" = true ∧
    strContains "Sources Sought" "Solicitation" = false :=
  type_filter_governs_acceptance [] 5 1 [[oppSol]]
    (CollectResult.mk [oppSol] [("a", ⟨5, oppSol⟩)] 1 0 0 true) oppSol
    (by decide) (by decide) (by decide)

/-! ### Claim C9 -/

/-- A record with an empty (falsy) notice id. -/
def oppNoId : Opp := ⟨"", "Solicitation", 9⟩

/-- C9: records without a (non-empty) notice id are silently dropped:
removing them from every upstream result list changes nothing about what a
cycle accepts, stores, or counts in the already-collected and
non-solicitation buckets, and every newly accepted record has a non-empty
id. -/
theorem idless_records_silently_dropped (store : Store) (now days : Nat)
    (qrs : List (List Opp)) (r r2 : CollectResult)
    (h : collect_daily_opportunities store now days qrs = Except.ok r)
    (h2 : collect_daily_opportunities store now days
        (qrs.map (fun q => q.filter (fun o => !decide (o.noticeId = ""))))
      = Except.ok r2) :
    r.new_opportunities = r2.new_opportunities ∧
    r.store = r2.store ∧
    r.already_collected = r2.already_collected ∧
    r.non_solicitation = r2.non_solicitation ∧
    (∀ o ∈ r.new_opportunities, o.noticeId ≠ "") := by
  obtain ⟨hn, hs, ha, hb, _, _⟩ := collect_daily_ok h
  obtain ⟨hn2, hs2, ha2, hb2, _, _⟩ := collect_daily_ok h2
  rw [merge_filter_idless] at hn2 hs2 ha2 hb2
  refine ⟨by rw [hn, hn2], by rw [hs, hs2], by rw [ha, ha2],
    by rw [hb, hb2], ?_⟩
  intro o ho
  rw [hn, acceptedRecords] at ho
  obtain ⟨hom, _⟩ := List.mem_filter.mp ho
  exact merge_values_truthy qrs o hom

/-- C9 witness: a run whose upstream result contains a record with an
empty notice id, compared with the same run on the filtered input. -/
theorem idless_records_silently_dropped_witness :
    (CollectResult.mk [oppSol] [("a", ⟨5, oppSol⟩)] 2 0 0
        true).new_opportunities
      = (CollectResult.mk [oppSol] [("a", ⟨5, oppSol⟩)] 1 0 0
        true).new_opportunities ∧
    (CollectResult.mk [oppSol] [("a", ⟨5, oppSol⟩)] 2 0 0 true).store
      = (CollectResult.mk [oppSol] [("a", ⟨5, oppSol⟩)] 1 0 0 true).store ∧
    (CollectResult.mk [oppSol] [("a", ⟨5, oppSol⟩)] 2 0 0
        true).already_collected
      = (CollectResult.mk [oppSol] [("a", ⟨5, oppSol⟩)] 1 0 0
        true).already_collected ∧
    (CollectResult.mk [oppSol] [("a", ⟨5, oppSol⟩)] 2 0 0
        true).non_solicitation
      = (CollectResult.mk [oppSol] [("a", ⟨5, oppSol⟩)] 1 0 0
        true).non_solicitation ∧
    (∀ o ∈ (CollectResult.mk [oppSol] [("a", ⟨5, oppSol⟩)] 2 0 0
        true).new_opportunities, o.noticeId ≠ "") :=
  idless_records_silently_dropped [] 5 1 [[oppSol, oppNoId]]
    (CollectResult.mk [oppSol] [("a", ⟨5, oppSol⟩)] 2 0 0 true)
    (CollectResult.mk [oppSol] [("a", ⟨5, oppSol⟩)] 1 0 0 true)
    (by decide) (by decide)

/-! ### Claim C10 -/

/-- C10: when the store file exists but cannot be read or parsed, loading
yields the empty map instead of raising, so the cycle runs against an
empty in-memory store; any merged solicitation record — including one whose
identifier had been persisted before the file was lost — is then treated as
new, re-accepted, and re-stored, the cycle persists, and a successful
persist makes the file hold exactly the new in-memory map (overwriting the
old content). -/
theorem corrupt_store_loads_empty_and_reaccepts :
    load_opportunities LoadInput.unreadable = [] ∧
    (∀ (now days : Nat) (qrs : List (List Opp)) (r : CollectResult)
        (opp : Opp),
      collect_daily_opportunities (load_opportunities LoadInput.unreadable)
          now days qrs = Except.ok r →
      opp ∈ (mergeOpportunities qrs).map Prod.snd →
      strContains opp.type "Solicitation" = true →
      opp ∈ r.new_opportunities ∧
      alookup r.store opp.noticeId = some ⟨now, opp⟩ ∧
      r.saved = true ∧
      save_opportunities r.store = r.store) := by
  refine ⟨rfl, ?_⟩
  intro now days qrs r opp h hmem hsol
  obtain ⟨hn, hs, _, _, _, hsv⟩ := collect_daily_ok h
  have hnd : (((mergeOpportunities qrs).map Prod.snd).map Opp.noticeId).Nodup :=
    merge_values_ids_nodup qrs
  have habs : alookup (load_opportunities LoadInput.unreadable) opp.noticeId
      = none := rfl
  have hoacc : opp ∈ acceptedRecords (load_opportunities LoadInput.unreadable)
      ((mergeOpportunities qrs).map Prod.snd) := by
    rw [acceptedRecords, List.mem_filter]
    refine ⟨hmem, ?_⟩
    rw [isAccepted, isPresent, habs, hsol]
    rfl
  refine ⟨?_, ?_, ?_, rfl⟩
  · rw [hn]
    exact hoacc
  · rw [hs, alookup_append_none _ habs]
    exact alookup_toEntry_of_mem now (accepted_ids_nodup _ hnd) hoacc
  · rw [hsv]
    have hne : acceptedRecords (load_opportunities LoadInput.unreadable)
        ((mergeOpportunities qrs).map Prod.snd) ≠ [] := by
      intro hc
      rw [hc] at hoacc
      simp at hoacc
    simp [List.isEmpty_iff, hne]

/-- C10 witness: the re-acceptance conjunct applied to a concrete record
whose id was stored before the file became unreadable. -/
theorem corrupt_store_loads_empty_and_reaccepts_witness :
    oppSol ∈ (CollectResult.mk [oppSol] [("a", ⟨5, oppSol⟩)] 1 0 0
        true).new_opportunities ∧
    alookup (CollectResult.mk [oppSol] [("a", ⟨5, oppSol⟩)] 1 0 0
        true).store oppSol.noticeId = some ⟨5, oppSol⟩ ∧
    (CollectResult.mk [oppSol] [("a", ⟨5, oppSol⟩)] 1 0 0 true).saved = true ∧
    save_opportunities (CollectResult.mk [oppSol] [("a", ⟨5, oppSol⟩)] 1 0 0
        true).store
      = (CollectResult.mk [oppSol] [("a", ⟨5, oppSol⟩)] 1 0 0 true).store :=
  corrupt_store_loads_empty_and_reaccepts.2 5 1 [[oppSol]]
    (CollectResult.mk [oppSol] [("a", ⟨5, oppSol⟩)] 1 0 0 true) oppSol
    (by decide) (by decide) (by decide)
